import Mathlib

/-!
Shallow embedding of `slog-gorm` (`src/logger.go`), a logging adapter between
gorm's tracing callbacks and Go's `log/slog` structured-logging backend.

The embedding follows the source file `logger.go`:
* `logger` mirrors the `logger` struct (handler, flags, threshold, level map,
  context extractors, field names); `New` mirrors the defaults set by `New`.
* `log` mirrors the `log` method: nil-context substitution, the handler's
  `Enabled` pre-check, `fmt.Sprintf(format, args...)` message construction,
  and `r.Add(l.appendContextAttributes(ctx, nil)...)`.
* `trace` mirrors the `Trace` method: the `ignoreTrace` early return and the
  three-case `switch` (error / slow query / trace all), each case invoking the
  lazy `fc` provider, building its attribute slice, merging context attributes
  and delegating to `log`.
* `appendContextAttributes` mirrors the method of the same name, including the
  fact that `ctx.Value` called on a nil `context.Context` is a runtime panic
  (modelled as `Except.error`).

External collaborators are modelled at the fidelity the source uses them:
a Go error is its `Error()` string plus the identities its wrap chain matches
under `errors.Is`; a `context.Context` is `none` (the nil interface) or a
key/value table; the slog handler is its `Enabled` policy, and a `Handle` call
is recorded as an emitted `Record`; `utils.FileWithLineNum()` and the elapsed
duration `time.Since(begin)` are inputs.
-/

namespace SlogGorm

/-- Severity level, as in Go `log/slog`: Info = 0, Warn = 4, Error = 8. -/
abbrev Level := Int

def LevelInfo : Level := 0

def LevelWarn : Level := 4

def LevelError : Level := 8

/-- `type LogType string` from the source. -/
abbrev LogType := String

def ErrorLogType : LogType := "sql_error"

def SlowQueryLogType : LogType := "slow_query"

def DefaultLogType : LogType := "default"

def SourceField : String := "file"

def ErrorField : String := "error"

def QueryField : String := "query"

def DurationField : String := "duration"

def SlowQueryField : String := "slow_query"

def RowsField : String := "rows"

/-- A Go error value: its `Error()` string, plus the identities of the
sentinel values its wrap chain matches under `errors.Is` (`errors.Is e t`
holds exactly when the identity of `t` is a member of the chain of `e`). -/
structure GoError where
  msg : String
  chain : List String
deriving DecidableEq, Repr

/-- Identity of the `gorm.ErrRecordNotFound` sentinel. -/
def recordNotFoundId : String := "gorm.ErrRecordNotFound"

/-- The bare `gorm.ErrRecordNotFound` sentinel value. -/
def gormErrRecordNotFound : GoError := ⟨"record not found", [recordNotFoundId]⟩

/-- `errors.Is(e, target)`: chain membership of the target's identity. -/
def errorsIs (e : GoError) (targetId : String) : Bool :=
  e.chain.contains targetId

/-- The lookup table of a non-nil `context.Context` (String-valued entries;
the claims only compare the stored values for identity). -/
abbrev CtxMap := List (String × String)

/-- A Go `context.Context` parameter: `none` models the nil interface value. -/
abbrev GoContext := Option CtxMap

/-- `ctx.Value(key)`: a method call on a nil `context.Context` interface is a
runtime panic, modelled as `Except.error ()`; on a non-nil context it returns
the stored value or nil (`none`). -/
def ctxValue : GoContext → String → Except Unit (Option String)
  | none, _ => .error ()
  | some m, k => .ok (m.lookup k)

/-- The value of one `slog` attribute, covering the constructors the source
uses: `slog.String`, `slog.Int64`, `slog.Duration`, `slog.Bool`, `slog.Any`
applied to the error, and `slog.Any` applied to a context value. -/
inductive AttrValue
  | str : String → AttrValue
  | int64 : Int → AttrValue
  | dur : Int → AttrValue
  | bool : Bool → AttrValue
  | errVal : GoError → AttrValue
  | ctxVal : String → AttrValue
deriving DecidableEq, Repr

/-- One `slog.Attr`. -/
structure Attr where
  key : String
  value : AttrValue
deriving DecidableEq, Repr

/-- A `slog.Record` as handed to `Handler.Handle`. The creation timestamp and
program counter carried by the Go record are opaque to every claim and are
omitted from the model. -/
structure Record where
  level : Level
  message : String
  attrs : List Attr
deriving DecidableEq, Repr

/-- The external `slog.Handler` collaborator: only its `Enabled` policy is
observable to the logger; a `Handle` call is modelled by the record appearing
in the output of `log` / `trace`. -/
structure Handler where
  enabled : Level → Bool

/-- The `logger` struct from the source. `logLevel` is the Go map from log
type to level (association list; an absent key reads as the zero level, as a
Go map does). `contextKeys` is the map from attribute name to context lookup
key, modelled as an association list in registration order (Go map iteration
order is unspecified; the claims are order-independent). -/
structure logger where
  sloggerHandler : Handler
  ignoreTrace : Bool
  ignoreRecordNotFoundError : Bool
  traceAll : Bool
  slowThreshold : Int
  logLevel : List (LogType × Level)
  contextKeys : List (String × String)
  sourceField : String
  errorField : String

/-- Go map read `l.logLevel[t]`: an absent key yields the zero `slog.Level`. -/
def lookupLevel (m : List (LogType × Level)) (t : LogType) : Level :=
  (m.lookup t).getD 0

/-- The defaults installed by `New` before options are applied (`options.go`
mutators are not needed by the claims, which quantify over all `logger`
values). The nil-handler fallback to `slog.Default().Handler()` is resolved
by taking the effective handler as an argument. -/
def New (h : Handler) : logger :=
  { sloggerHandler := h
    ignoreTrace := false
    ignoreRecordNotFoundError := true
    traceAll := false
    slowThreshold := 0
    logLevel := [(ErrorLogType, LevelError), (SlowQueryLogType, LevelWarn),
                 (DefaultLogType, LevelInfo)]
    contextKeys := []
    sourceField := SourceField
    errorField := ErrorField }

/-- Loop body of `appendContextAttributes`: for each registered extractor
`(name, key)`, read `ctx.Value(key)` (which panics on a nil context) and, if
the value is non-nil, append `slog.Any(name, value)`. -/
def appendCtxLoop (ctx : GoContext) :
    List (String × String) → List Attr → Except Unit (List Attr)
  | [], args => .ok args
  | kv :: rest, args =>
    match ctxValue ctx kv.2 with
    | .error e => .error e
    | .ok (some v) => appendCtxLoop ctx rest (args ++ [⟨kv.1, .ctxVal v⟩])
    | .ok none => appendCtxLoop ctx rest args

/-- `appendContextAttributes(ctx, args)` from the source. The Go nil-slice
normalization `if args == nil` is a no-op in the model. -/
def appendContextAttributes (l : logger) (ctx : GoContext) (args : List Attr) :
    Except Unit (List Attr) :=
  appendCtxLoop ctx l.contextKeys args

/-- Rendering of an attribute value by fmt's default verb (only the shape
matters to the claims: it makes surplus-operand text visibly non-empty). -/
def attrValueText : AttrValue → String
  | .str s => s
  | .int64 i => toString i
  | .dur d => toString d
  | .bool b => toString b
  | .errVal e => e.msg
  | .ctxVal v => v

def attrText (a : Attr) : String :=
  a.key ++ "=" ++ attrValueText a.value

/-- Model of Go `fmt.Sprintf(format, args...)` for format strings containing
no formatting verb, the only case the trace path produces: with no operands
the format is returned unchanged; surplus operands make fmt append its
standard error marker, as documented in the fmt package
("%!(EXTRA type=value, ...)"). The free-form path may pass formats with
verbs, but no claim constrains free-form message text built from operands. -/
def sprintfNoVerbs (format : String) (args : List Attr) : String :=
  if args.isEmpty then format
  else
    format ++ "%!(EXTRA " ++
      String.intercalate ", " (args.map (fun a => "slog.Attr=" ++ attrText a)) ++ ")"

/-- Abstract rendering of a Go `time.Duration` (its `String()` method); the
claims quote messages only up to the rendered durations, so the model prints
the nanosecond count. -/
def durationString (d : Int) : String :=
  toString d ++ "ns"

/-- The `log` method: substitute `context.Background()` for a nil context,
return early when the handler reports the level disabled, otherwise build the
record with `fmt.Sprintf(format, args...)` as message and
`l.appendContextAttributes(ctx, nil)` as its attributes, and hand it to
`Handle`. The returned `Option` is the record handed to the sink (`none` when
the `Enabled` pre-check dropped the call). -/
def log (l : logger) (ctx : GoContext) (level : Level) (format : String)
    (args : List Attr) : Option Record :=
  let ctx2 : GoContext :=
    match ctx with
    | none => some []
    | some m => some m
  if l.sloggerHandler.enabled level = false then none
  else
    match appendContextAttributes l ctx2 [] with
    | .error _ => none
    | .ok ctxAttrs => some ⟨level, sprintfNoVerbs format args, ctxAttrs⟩

/-- The `Info` entry point. Free-form operands are modelled as attribute
values; no claim constrains the formatted text they produce. -/
def Info (l : logger) (ctx : GoContext) (format : String) (args : List Attr) :
    Option Record :=
  log l ctx LevelInfo format args

/-- The `Warn` entry point. -/
def Warn (l : logger) (ctx : GoContext) (format : String) (args : List Attr) :
    Option Record :=
  log l ctx LevelWarn format args

/-- The `Error` entry point. -/
def Error (l : logger) (ctx : GoContext) (format : String) (args : List Attr) :
    Option Record :=
  log l ctx LevelError format args

/-- Guard of the first `switch` case of `Trace`:
`err != nil && (!errors.Is(err, gorm.ErrRecordNotFound) || !l.ignoreRecordNotFoundError)`. -/
def errBranchHit (l : logger) (err : Option GoError) : Bool :=
  match err with
  | some e => !(errorsIs e recordNotFoundId) || !l.ignoreRecordNotFoundError
  | none => false

/-- Guard of the second `switch` case of `Trace`:
`l.slowThreshold != 0 && elapsed > l.slowThreshold`. -/
def slowBranchHit (l : logger) (elapsed : Int) : Bool :=
  (l.slowThreshold != 0) && (decide (l.slowThreshold < elapsed))

/-- Observable outcome of one `Trace` call: the number of invocations of the
lazy `fc` provider, whether the call hit a runtime panic (nil-context
dereference while collecting context attributes), which `switch` case fired,
and the records handed to the sink's `Handle`. -/
structure TraceResult where
  fcCalls : Nat
  panicked : Bool
  category : Option LogType
  emitted : List Record
deriving DecidableEq, Repr

/-- Shared shape of the three `switch` cases of `Trace`: the case has already
invoked `fc` once; it merges context attributes into its base attribute slice
(a panic aborts the call before anything reaches the sink) and then delegates
to `log` with the category's configured level. -/
def traceBranch (l : logger) (ctx : GoContext) (t : LogType)
    (baseAttrs : List Attr) (msg : String) : TraceResult :=
  match appendContextAttributes l ctx baseAttrs with
  | .error _ => ⟨1, true, some t, []⟩
  | .ok attributes =>
    ⟨1, false, some t, (log l ctx (lookupLevel l.logLevel t) msg attributes).toList⟩

/-- Attribute slice built by the error case of `Trace`. -/
def errorAttrs (l : logger) (e : GoError) (sql : String) (rows : Int)
    (elapsed : Int) (file : String) : List Attr :=
  [⟨l.errorField, .errVal e⟩, ⟨QueryField, .str sql⟩,
   ⟨DurationField, .dur elapsed⟩, ⟨RowsField, .int64 rows⟩,
   ⟨l.sourceField, .str file⟩]

/-- Attribute slice built by the slow-query case of `Trace`. -/
def slowAttrs (l : logger) (sql : String) (rows : Int) (elapsed : Int)
    (file : String) : List Attr :=
  [⟨SlowQueryField, .bool true⟩, ⟨QueryField, .str sql⟩,
   ⟨DurationField, .dur elapsed⟩, ⟨RowsField, .int64 rows⟩,
   ⟨l.sourceField, .str file⟩]

/-- Attribute slice built by the trace-all case of `Trace`. -/
def defaultAttrs (l : logger) (sql : String) (rows : Int) (elapsed : Int)
    (file : String) : List Attr :=
  [⟨QueryField, .str sql⟩, ⟨DurationField, .dur elapsed⟩,
   ⟨RowsField, .int64 rows⟩, ⟨l.sourceField, .str file⟩]

/-- The second and third `switch` cases of `Trace` (reached when the error
case did not match), and the fall-through that emits nothing. -/
def traceTail (l : logger) (ctx : GoContext) (fcSql : String) (fcRows : Int)
    (elapsed : Int) (fileWithLineNum : String) : TraceResult :=
  if slowBranchHit l elapsed then
    traceBranch l ctx SlowQueryLogType
      (slowAttrs l fcSql fcRows elapsed fileWithLineNum)
      ("slow sql query [" ++ durationString elapsed ++ " >= " ++
        durationString l.slowThreshold ++ "]")
  else if l.traceAll then
    traceBranch l ctx DefaultLogType
      (defaultAttrs l fcSql fcRows elapsed fileWithLineNum)
      ("SQL query executed [" ++ durationString elapsed ++ "]")
  else ⟨0, false, none, []⟩

/-- The `Trace` method. `fcSql`/`fcRows` are the values the lazy provider
would produce, `elapsed` is `time.Since(begin)`, and `fileWithLineNum` is the
opaque string returned by `utils.FileWithLineNum()`. -/
def trace (l : logger) (ctx : GoContext) (fcSql : String) (fcRows : Int)
    (elapsed : Int) (fileWithLineNum : String) (err : Option GoError) :
    TraceResult :=
  if l.ignoreTrace then ⟨0, false, none, []⟩
  else
    match err with
    | some e =>
      if !(errorsIs e recordNotFoundId) || !l.ignoreRecordNotFoundError then
        traceBranch l ctx ErrorLogType
          (errorAttrs l e fcSql fcRows elapsed fileWithLineNum) e.msg
      else traceTail l ctx fcSql fcRows elapsed fileWithLineNum
    | none => traceTail l ctx fcSql fcRows elapsed fileWithLineNum

/-! ### Helper lemmas characterizing the embedding -/

/-- Pure value of the context-attribute loop on a non-nil context. -/
def ctxLoopPure (m : CtxMap) : List (String × String) → List Attr
  | [] => []
  | kv :: rest =>
    (match m.lookup kv.2 with
     | some v => [Attr.mk kv.1 (AttrValue.ctxVal v)]
     | none => []) ++ ctxLoopPure m rest

/-- The context-derived attributes a record built against table `m` carries. -/
def ctxAttrsOf (l : logger) (m : CtxMap) : List Attr :=
  ctxLoopPure m l.contextKeys

theorem appendCtxLoop_some (m : CtxMap) :
    ∀ (keys : List (String × String)) (args : List Attr),
      appendCtxLoop (some m) keys args = .ok (args ++ ctxLoopPure m keys) := by
  intro keys
  induction keys with
  | nil => intro args; simp [appendCtxLoop, ctxLoopPure]
  | cons kv rest ih =>
    intro args
    simp only [appendCtxLoop, ctxValue, ctxLoopPure]
    cases m.lookup kv.2 with
    | none => simp [ih]
    | some v => simp [ih]

theorem appendCtxLoop_nil_keys (ctx : GoContext) (args : List Attr) :
    appendCtxLoop ctx [] args = .ok args := rfl

theorem appendCtxLoop_none (keys : List (String × String)) (args : List Attr)
    (h : keys ≠ []) : appendCtxLoop none keys args = .error () := by
  cases keys with
  | nil => exact absurd rfl h
  | cons kv rest => rfl

theorem log_eq (l : logger) (ctx : GoContext) (level : Level) (format : String)
    (args : List Attr) :
    log l ctx level format args =
      if l.sloggerHandler.enabled level then
        some ⟨level, sprintfNoVerbs format args, ctxAttrsOf l (ctx.getD [])⟩
      else none := by
  cases h : l.sloggerHandler.enabled level <;> cases ctx <;>
    simp [log, appendContextAttributes, appendCtxLoop_some, h, ctxAttrsOf]

theorem traceBranch_category (l : logger) (ctx : GoContext) (t : LogType)
    (b : List Attr) (msg : String) :
    (traceBranch l ctx t b msg).category = some t := by
  unfold traceBranch
  cases appendContextAttributes l ctx b <;> rfl

theorem traceBranch_fcCalls (l : logger) (ctx : GoContext) (t : LogType)
    (b : List Attr) (msg : String) :
    (traceBranch l ctx t b msg).fcCalls = 1 := by
  unfold traceBranch
  cases appendContextAttributes l ctx b <;> rfl

theorem traceBranch_some (l : logger) (m : CtxMap) (t : LogType)
    (b : List Attr) (msg : String) :
    traceBranch l (some m) t b msg =
      ⟨1, false, some t,
       (log l (some m) (lookupLevel l.logLevel t) msg
         (b ++ ctxAttrsOf l m)).toList⟩ := by
  simp [traceBranch, appendContextAttributes, appendCtxLoop_some, ctxAttrsOf]

theorem traceBranch_emitted_length (l : logger) (ctx : GoContext) (t : LogType)
    (b : List Attr) (msg : String) :
    (traceBranch l ctx t b msg).emitted.length ≤ 1 := by
  unfold traceBranch
  cases appendContextAttributes l ctx b with
  | error e => simp
  | ok attrs => cases h : log l ctx (lookupLevel l.logLevel t) msg attrs <;> simp [h]

theorem traceBranch_emitted_level (l : logger) (ctx : GoContext) (t : LogType)
    (b : List Attr) (msg : String) :
    ∀ rec ∈ (traceBranch l ctx t b msg).emitted,
      rec.level = lookupLevel l.logLevel t := by
  unfold traceBranch
  cases appendContextAttributes l ctx b with
  | error e => simp
  | ok attrs =>
    cases h : l.sloggerHandler.enabled (lookupLevel l.logLevel t) <;>
      simp [log_eq, h]

theorem traceBranch_emitted_attrs (l : logger) (m : CtxMap) (t : LogType)
    (b : List Attr) (msg : String) :
    ∀ rec ∈ (traceBranch l (some m) t b msg).emitted,
      rec.attrs = ctxAttrsOf l m := by
  rw [traceBranch_some]
  cases h : l.sloggerHandler.enabled (lookupLevel l.logLevel t) <;>
    simp [log_eq, h]

theorem traceBranch_emitted_enabled (l : logger) (ctx : GoContext) (t : LogType)
    (b : List Attr) (msg : String)
    (h : (traceBranch l ctx t b msg).emitted ≠ []) :
    l.sloggerHandler.enabled (lookupLevel l.logLevel t) = true := by
  by_contra hfalse
  apply h
  unfold traceBranch
  cases appendContextAttributes l ctx b with
  | error e => rfl
  | ok attrs => simp [log_eq, Bool.eq_false_iff.mpr hfalse]

theorem traceBranch_panicked_some (l : logger) (m : CtxMap) (t : LogType)
    (b : List Attr) (msg : String) :
    (traceBranch l (some m) t b msg).panicked = false := by
  rw [traceBranch_some]

theorem traceTail_category (l : logger) (ctx : GoContext) (s : String)
    (r e : Int) (f : String) :
    (traceTail l ctx s r e f).category =
      if slowBranchHit l e then some SlowQueryLogType
      else if l.traceAll then some DefaultLogType
      else none := by
  unfold traceTail
  split_ifs <;> simp [traceBranch_category]

theorem traceTail_fcCalls (l : logger) (ctx : GoContext) (s : String)
    (r e : Int) (f : String) :
    (traceTail l ctx s r e f).fcCalls =
      if slowBranchHit l e then 1 else if l.traceAll then 1 else 0 := by
  unfold traceTail
  split_ifs <;> simp [traceBranch_fcCalls]

theorem trace_category (l : logger) (ctx : GoContext) (s : String) (r e : Int)
    (f : String) (err : Option GoError) :
    (trace l ctx s r e f err).category =
      if l.ignoreTrace then none
      else if errBranchHit l err then some ErrorLogType
      else if slowBranchHit l e then some SlowQueryLogType
      else if l.traceAll then some DefaultLogType
      else none := by
  unfold trace errBranchHit
  cases err with
  | none => split_ifs <;> simp_all [traceTail_category]
  | some w =>
    split_ifs <;> simp_all [traceTail_category, traceBranch_category]

theorem trace_fcCalls (l : logger) (ctx : GoContext) (s : String) (r e : Int)
    (f : String) (err : Option GoError) :
    (trace l ctx s r e f err).fcCalls =
      if l.ignoreTrace then 0
      else if errBranchHit l err then 1
      else if slowBranchHit l e then 1
      else if l.traceAll then 1
      else 0 := by
  unfold trace errBranchHit
  cases err with
  | none => split_ifs <;> simp_all [traceTail_fcCalls]
  | some w =>
    split_ifs <;> simp_all [traceTail_fcCalls, traceBranch_fcCalls]

theorem trace_emitted_length (l : logger) (ctx : GoContext) (s : String)
    (r e : Int) (f : String) (err : Option GoError) :
    (trace l ctx s r e f err).emitted.length ≤ 1 := by
  cases err <;> simp only [trace, traceTail] <;> split_ifs <;>
    simp [traceBranch_emitted_length]

theorem trace_emitted_level (l : logger) (ctx : GoContext) (s : String)
    (r e : Int) (f : String) (err : Option GoError) (t : LogType)
    (hc : (trace l ctx s r e f err).category = some t) :
    ∀ rec ∈ (trace l ctx s r e f err).emitted,
      rec.level = lookupLevel l.logLevel t := by
  revert hc
  cases err <;> simp only [trace, traceTail] <;> split_ifs <;> intro hc <;>
    first
      | (rw [traceBranch_category] at hc
         obtain rfl := Option.some.inj hc
         exact traceBranch_emitted_level _ _ _ _ _)
      | simp_all

theorem trace_emitted_attrs (l : logger) (m : CtxMap) (s : String)
    (r e : Int) (f : String) (err : Option GoError) :
    ∀ rec ∈ (trace l (some m) s r e f err).emitted,
      rec.attrs = ctxAttrsOf l m := by
  cases err <;> simp only [trace, traceTail] <;> split_ifs <;>
    first
      | simp
      | exact traceBranch_emitted_attrs _ _ _ _ _

theorem trace_panicked_some (l : logger) (m : CtxMap) (s : String)
    (r e : Int) (f : String) (err : Option GoError) :
    (trace l (some m) s r e f err).panicked = false := by
  cases err <;> simp only [trace, traceTail] <;> split_ifs <;>
    first
      | rfl
      | exact traceBranch_panicked_some _ _ _ _ _

theorem trace_emitted_enabled (l : logger) (ctx : GoContext) (s : String)
    (r e : Int) (f : String) (err : Option GoError)
    (h : (trace l ctx s r e f err).emitted ≠ []) :
    ∃ t, (trace l ctx s r e f err).category = some t ∧
      l.sloggerHandler.enabled (lookupLevel l.logLevel t) = true := by
  revert h
  cases err <;> simp only [trace, traceTail] <;> split_ifs <;> intro h <;>
    first
      | exact absurd rfl h
      | exact ⟨_, traceBranch_category _ _ _ _ _,
          traceBranch_emitted_enabled _ _ _ _ _ h⟩

theorem log_none_eq_empty (l : logger) (level : Level) (format : String)
    (args : List Attr) :
    log l none level format args = log l (some []) level format args := by
  simp [log_eq]

theorem traceBranch_none_eq_empty (l : logger) (t : LogType) (b : List Attr)
    (msg : String) (hkeys : l.contextKeys = []) :
    traceBranch l none t b msg = traceBranch l (some []) t b msg := by
  unfold traceBranch
  simp [appendContextAttributes, hkeys, appendCtxLoop, log_none_eq_empty]

theorem trace_none_eq_empty (l : logger) (s : String) (r e : Int) (f : String)
    (err : Option GoError) (hkeys : l.contextKeys = []) :
    trace l none s r e f err = trace l (some []) s r e f err := by
  cases err <;> simp only [trace, traceTail] <;> split_ifs <;>
    first
      | rfl
      | exact traceBranch_none_eq_empty _ _ _ _ hkeys

theorem trace_no_match (l : logger) (ctx : GoContext) (s : String) (r e : Int)
    (f : String) (err : Option GoError)
    (h : l.ignoreTrace = true ∨ (errBranchHit l err = false ∧
      slowBranchHit l e = false ∧ l.traceAll = false)) :
    trace l ctx s r e f err = ⟨0, false, none, []⟩ := by
  rcases h with hit | ⟨hb, hs, ht⟩
  · simp only [trace]
    simp [hit]
  · by_cases hit : l.ignoreTrace
    · simp only [trace]
      simp [hit]
    · cases err with
      | none =>
        simp only [trace, traceTail]
        simp [hit, hs, ht]
      | some w =>
        have hb2 : (!(errorsIs w recordNotFoundId) ||
            !l.ignoreRecordNotFoundError) = false := by
          simpa [errBranchHit] using hb
        simp only [trace, traceTail]
        simp [hit, hb2, hs, ht]

theorem traceBranch_none_panics (l : logger) (t : LogType) (b : List Attr)
    (msg : String) (hkeys : l.contextKeys ≠ []) :
    traceBranch l none t b msg = ⟨1, true, some t, []⟩ := by
  unfold traceBranch
  rw [appendContextAttributes, appendCtxLoop_none l.contextKeys b hkeys]

theorem trace_match_shape (l : logger) (ctx : GoContext) (s : String)
    (r e : Int) (f : String) (err : Option GoError)
    (hit : l.ignoreTrace = false)
    (hmatch : errBranchHit l err = true ∨ slowBranchHit l e = true ∨
      l.traceAll = true) :
    ∃ t b msg, trace l ctx s r e f err = traceBranch l ctx t b msg := by
  by_cases hb : errBranchHit l err = true
  · cases err with
    | none => simp [errBranchHit] at hb
    | some w =>
      refine ⟨ErrorLogType, errorAttrs l w s r e f, w.msg, ?_⟩
      have hb2 : (!(errorsIs w recordNotFoundId) ||
          !l.ignoreRecordNotFoundError) = true := by
        simpa [errBranchHit] using hb
      simp only [trace]
      simp [hit, hb2]
  · have hbf : errBranchHit l err = false := Bool.eq_false_iff.mpr hb
    have htail : trace l ctx s r e f err = traceTail l ctx s r e f := by
      cases err with
      | none =>
        simp only [trace]
        simp [hit]
      | some w =>
        have hb2 : (!(errorsIs w recordNotFoundId) ||
            !l.ignoreRecordNotFoundError) = false := by
          simpa [errBranchHit] using hbf
        simp only [trace]
        simp [hit, hb2]
    rw [htail]
    by_cases hs : slowBranchHit l e = true
    · refine ⟨SlowQueryLogType, slowAttrs l s r e f,
        "slow sql query [" ++ durationString e ++ " >= " ++
          durationString l.slowThreshold ++ "]", ?_⟩
      simp only [traceTail]
      simp [hs]
    · have hsf : slowBranchHit l e = false := Bool.eq_false_iff.mpr hs
      rcases hmatch with h | h | h
      · exact absurd h hb
      · exact absurd h hs
      · refine ⟨DefaultLogType, defaultAttrs l s r e f,
          "SQL query executed [" ++ durationString e ++ "]", ?_⟩
        simp only [traceTail]
        simp [hsf, h]

theorem trace_none_panics (l : logger) (s : String) (r e : Int) (f : String)
    (err : Option GoError) (hkeys : l.contextKeys ≠ [])
    (hit : l.ignoreTrace = false)
    (hmatch : errBranchHit l err = true ∨ slowBranchHit l e = true ∨
      l.traceAll = true) :
    (trace l none s r e f err).panicked = true ∧
    (trace l none s r e f err).emitted = [] := by
  obtain ⟨t, b, msg, htr⟩ := trace_match_shape l none s r e f err hit hmatch
  rw [htr, traceBranch_none_panics l t b msg hkeys]
  exact ⟨rfl, rfl⟩

theorem ctxLoopPure_key_mem (m : CtxMap) :
    ∀ (keys : List (String × String)) (a : Attr), a ∈ ctxLoopPure m keys →
      a.key ∈ keys.map Prod.fst := by
  intro keys
  induction keys with
  | nil => simp [ctxLoopPure]
  | cons kv rest ih =>
    obtain ⟨n2, k2⟩ := kv
    intro a ha
    rw [ctxLoopPure] at ha
    rcases List.mem_append.mp ha with hb | hb
    · cases hl : m.lookup (n2, k2).2 with
      | none => rw [hl] at hb; simp at hb
      | some v =>
        rw [hl] at hb
        simp only [List.mem_singleton] at hb
        subst hb
        simp
    · simp only [List.map_cons, List.mem_cons]
      exact Or.inr (ih a hb)

theorem ctxLoopPure_mem_of_lookup (m : CtxMap) (name key v : String) :
    ∀ (keys : List (String × String)), (name, key) ∈ keys →
      m.lookup key = some v →
      Attr.mk name (AttrValue.ctxVal v) ∈ ctxLoopPure m keys := by
  intro keys
  induction keys with
  | nil => simp
  | cons kv rest ih =>
    intro hmem hlook
    rw [ctxLoopPure]
    rcases List.mem_cons.mp hmem with heq | hmem2
    · obtain ⟨n2, k2⟩ := kv
      obtain ⟨rfl, rfl⟩ := Prod.mk.injEq .. ▸ heq.symm
      simp [hlook]
    · exact List.mem_append.mpr (Or.inr (ih hmem2 hlook))

theorem ctxLoopPure_no_name (m : CtxMap) (name key : String) :
    ∀ (keys : List (String × String)),
      (keys.map Prod.fst).Nodup → (name, key) ∈ keys →
      m.lookup key = none →
      ∀ a ∈ ctxLoopPure m keys, a.key ≠ name := by
  intro keys
  induction keys with
  | nil => simp
  | cons kv rest ih =>
    obtain ⟨n2, k2⟩ := kv
    intro hnodup hmem hlook a ha
    rw [List.map_cons, List.nodup_cons] at hnodup
    rw [ctxLoopPure] at ha
    rcases List.mem_append.mp ha with hb | hb
    · cases hl : m.lookup (n2, k2).2 with
      | none => rw [hl] at hb; simp at hb
      | some v =>
        rw [hl] at hb
        simp only [List.mem_singleton] at hb
        subst hb
        show n2 ≠ name
        rcases List.mem_cons.mp hmem with heq | hmem2
        · injection heq with h1 h2
          subst h1
          subst h2
          exfalso
          simp [hlook] at hl
        · intro hbad
          subst hbad
          exact hnodup.1 (List.mem_map.mpr ⟨(n2, key), hmem2, rfl⟩)
    · rcases List.mem_cons.mp hmem with heq | hmem2
      · injection heq with h1 h2
        subst h1
        subst h2
        have hkm := ctxLoopPure_key_mem m rest a hb
        intro hbad
        exact hnodup.1 (hbad ▸ hkm)
      · exact ih hnodup.2 hmem2 hlook a hb

/-! ### Concrete instances used by witnesses and counterexamples -/

/-- A sink that accepts every level (like the DummyHandler of the repo's own
tests). -/
def onHandler : Handler := ⟨fun _ => true⟩

/-- A sink that reports every level disabled. -/
def offHandler : Handler := ⟨fun _ => false⟩

/-- Default logger over the all-disabled sink. -/
def offLogger : logger := New offHandler

/-- All-disabled sink with trace-all mode on. -/
def offTraceAll : logger := { New offHandler with traceAll := true }

/-- All-enabled sink with trace-all mode on. -/
def onTraceAll : logger := { New onHandler with traceAll := true }

/-- A logger with one registered direct-key context extractor. -/
def extractorLogger : logger :=
  { New onHandler with contextKeys := [("attrKey", "ctxKey")] }

/-- A context table carrying the extractor's lookup key. -/
def ctxWithKey : CtxMap := [("ctxKey", "ctxVal")]

/-- The record the free-form path hands to the sink for `extractorLogger`
over `ctxWithKey`. -/
def extractorRecord : Record :=
  ⟨LevelInfo, "hi", [⟨"attrKey", AttrValue.ctxVal "ctxVal"⟩]⟩

/-- An error value that wraps the record-not-found sentinel (`errors.Is`
reports true) without being the bare sentinel value. -/
def wrappedRNF : GoError := ⟨"fetch user: record not found", [recordNotFoundId]⟩

/-! ### Claims -/

set_option maxRecDepth 20000 in
/-- C1: the claim says that for an unfiltered non-nil error (suppression off)
the record handed to the sink carries the error, query text, duration, row
count and call-site as attributes, sits at the configured Error-category
level, and has message equal to the error's string representation. Evaluating
`trace` at such a call shows the code violates this: `Trace` passes its five
built attributes into `log`, whose `fmt.Sprintf(format, args...)` consumes
them as surplus format operands, so the emitted record's attribute list is
empty (only context-derived attributes would appear) and its message is the
error string with fmt's "%!(EXTRA ...)" marker appended — not equal to the
error's string representation. The level is the configured Error level, as
claimed. -/
theorem claim_C1_error_event_garbled :
    (trace (New onHandler) (some []) "SELECT * FROM user" 1 60000000000
        "main.go:42" (some ⟨"awesome error", []⟩)).category = some ErrorLogType ∧
    (trace (New onHandler) (some []) "SELECT * FROM user" 1 60000000000
        "main.go:42" (some ⟨"awesome error", []⟩)).emitted.length = 1 ∧
    ∀ rec ∈ (trace (New onHandler) (some []) "SELECT * FROM user" 1
        60000000000 "main.go:42" (some ⟨"awesome error", []⟩)).emitted,
      rec.level = LevelError ∧
      rec.message ≠ "awesome error" ∧
      rec.message.take 13 = "awesome error" ∧
      rec.attrs = [] := by
  decide

set_option maxRecDepth 20000 in
/-- C7: the claim says a slow query (threshold 1s, elapsed 2s, no error)
emits at the configured SlowQuery level a record with the slow-query flag,
query text, duration, row count and call-site as attributes and message
"slow sql query [elapsed >= threshold]". Evaluating `trace` shows the level
and branch selection are as claimed, but the record's attribute list is empty
(the built attributes are consumed as surplus `fmt.Sprintf` operands in
`log`) and the message is the template with "%!(EXTRA ...)" appended rather
than the exact template. -/
theorem claim_C7_slow_event_garbled :
    (trace { New onHandler with slowThreshold := 1000000000 } (some [])
        "SELECT * FROM user" 1 2000000000 "main.go:7" none).category =
      some SlowQueryLogType ∧
    (trace { New onHandler with slowThreshold := 1000000000 } (some [])
        "SELECT * FROM user" 1 2000000000 "main.go:7" none).emitted.length = 1 ∧
    ∀ rec ∈ (trace { New onHandler with slowThreshold := 1000000000 }
        (some []) "SELECT * FROM user" 1 2000000000 "main.go:7" none).emitted,
      rec.level = LevelWarn ∧
      rec.message ≠ "slow sql query [" ++ durationString 2000000000 ++ " >= " ++
        durationString 1000000000 ++ "]" ∧
      rec.message.take 14 = "slow sql query" ∧
      rec.attrs = [] := by
  decide

/-- C2, counterexample: with trace-all enabled over a sink whose levels are
all disabled, the default category matches, yet no record is handed to the
sink — refuting the claim that on the trace path a record is always built and
handed off without consulting the sink's enabled-level check. -/
theorem claim_C2_trace_prechecks_enabled_cex :
    (trace offTraceAll (some []) "SELECT 1" 0 5 "f.go:1" none).category =
      some DefaultLogType ∧
    (trace offTraceAll (some []) "SELECT 1" 0 5 "f.go:1" none).emitted = [] := by
  decide

/-- C3, counterexample: with a registered context extractor and a matching
error branch, a nil ambient context is dereferenced while collecting context
attributes, so the Trace call faults instead of behaving as with an empty
context. -/
theorem claim_C3_nil_context_trace_faults_cex :
    (trace extractorLogger none "SELECT 1" 0 5 "f.go:1"
      (some ⟨"boom", []⟩)).panicked = true := by
  decide

/-- C4, counterexample: over an all-disabled sink, an error-branch Trace call
invokes the lazy provider exactly once although no event is emitted —
refuting the claim that the provider is invoked only if the event will
actually be emitted. -/
theorem claim_C4_provider_called_without_emission_cex :
    (trace offLogger (some []) "SELECT 1" 0 5 "f.go:1"
        (some ⟨"boom", []⟩)).fcCalls = 1 ∧
    (trace offLogger (some []) "SELECT 1" 0 5 "f.go:1"
        (some ⟨"boom", []⟩)).emitted = [] := by
  decide

/-- C6, counterexample: with the ignore-record-not-found flag at its default
true but trace-all enabled, a Trace call whose error is the bare sentinel
still invokes the lazy provider and emits a (default-category) event —
refuting the claim that with the flag true no event is emitted and no
provider is invoked. -/
theorem claim_C6_sentinel_ignored_still_emits_cex :
    onTraceAll.ignoreRecordNotFoundError = true ∧
    (trace onTraceAll (some []) "SELECT 1" 0 5 "f.go:1"
        (some gormErrRecordNotFound)).fcCalls = 1 ∧
    (trace onTraceAll (some []) "SELECT 1" 0 5 "f.go:1"
        (some gormErrRecordNotFound)).emitted ≠ [] := by
  decide

/-- C10, counterexample: for an error that wraps the record-not-found
sentinel without being it, with the ignore flag at its default true but
trace-all enabled, Trace emits a (default-category) event — refuting the
claim's "emits no event" (the outcome is nevertheless identical to the bare
sentinel's, which is the amended statement). -/
theorem claim_C10_wrapped_sentinel_cex :
    errorsIs wrappedRNF recordNotFoundId = true ∧
    wrappedRNF ≠ gormErrRecordNotFound ∧
    onTraceAll.ignoreRecordNotFoundError = true ∧
    (trace onTraceAll (some []) "SELECT 1" 0 5 "f.go:1"
        (some wrappedRNF)).emitted ≠ [] := by
  decide

/-- A default logger whose record-not-found filter is disabled. -/
def noIgnoreRNF : logger :=
  { New onHandler with ignoreRecordNotFoundError := false }

/-- A default logger with global trace suppression enabled. -/
def suppressedLogger : logger := { New onHandler with ignoreTrace := true }

/-- C2 (amended): on both paths the sink's enabled-level check gates record
construction and hand-off: the free-form `log` hands nothing to the sink when
the level is disabled, and a trace record reaches the sink only when the
selected category's configured level is enabled (the lazy provider and the
attribute slice are still evaluated before the check on the trace path). -/
theorem claim_C2_enabled_check_before_record (l : logger) (ctx : GoContext)
    (level : Level) (format : String) (args : List Attr) (s : String)
    (r e : Int) (f : String) (err : Option GoError) :
    (l.sloggerHandler.enabled level = false →
      log l ctx level format args = none) ∧
    ((trace l ctx s r e f err).emitted ≠ [] →
      ∃ t, (trace l ctx s r e f err).category = some t ∧
        l.sloggerHandler.enabled (lookupLevel l.logLevel t) = true) := by
  constructor
  · intro h
    simp [log_eq, h]
  · exact trace_emitted_enabled l ctx s r e f err

/-- Witness for the amended C2 theorem at a concrete disabled-sink call. -/
theorem claim_C2_enabled_check_before_record_witness :
    log offLogger (some []) LevelInfo "hi" [] = none := by
  have h := claim_C2_enabled_check_before_record offLogger (some []) LevelInfo
    "hi" [] "q" 0 5 "f" none
  exact h.1 (by decide)

/-- C3 (amended): the free-form path treats a nil ambient context exactly as
an empty context; the trace path does so whenever no context extractor is
registered (and then never faults) or no category branch matches (including
under global suppression); but whenever at least one extractor is registered,
suppression is off and a category branch matches, Trace reads the nil context
while building that branch's attributes and faults, emitting nothing. -/
theorem claim_C3_nil_context (l : logger) :
    (∀ (level : Level) (format : String) (args : List Attr),
      log l none level format args = log l (some []) level format args) ∧
    (l.contextKeys = [] →
      ∀ (s : String) (r e : Int) (f : String) (err : Option GoError),
        trace l none s r e f err = trace l (some []) s r e f err ∧
        (trace l none s r e f err).panicked = false) ∧
    (∀ (s : String) (r e : Int) (f : String) (err : Option GoError),
      l.ignoreTrace = true ∨ (errBranchHit l err = false ∧
        slowBranchHit l e = false ∧ l.traceAll = false) →
      trace l none s r e f err = trace l (some []) s r e f err ∧
      (trace l none s r e f err).panicked = false) ∧
    (∀ (s : String) (r e : Int) (f : String) (err : Option GoError),
      l.contextKeys ≠ [] → l.ignoreTrace = false →
      errBranchHit l err = true ∨ slowBranchHit l e = true ∨
        l.traceAll = true →
      (trace l none s r e f err).panicked = true ∧
      (trace l none s r e f err).emitted = []) := by
  refine ⟨?_, ?_, ?_, ?_⟩
  · intro level format args
    exact log_none_eq_empty l level format args
  · intro hkeys s r e f err
    refine ⟨trace_none_eq_empty l s r e f err hkeys, ?_⟩
    rw [trace_none_eq_empty l s r e f err hkeys]
    exact trace_panicked_some l [] s r e f err
  · intro s r e f err hmatch
    rw [trace_no_match l none s r e f err hmatch,
      trace_no_match l (some []) s r e f err hmatch]
    exact ⟨rfl, rfl⟩
  · intro s r e f err hkeys hit hmatch
    exact trace_none_panics l s r e f err hkeys hit hmatch

/-- Witness for the amended C3 theorem: an extractor-free trace call and a
no-match trace call with an extractor registered both treat nil as empty, and
an extractor-registered matching call faults. -/
theorem claim_C3_nil_context_witness :
    trace offLogger none "q" 0 5 "f" none =
      trace offLogger (some []) "q" 0 5 "f" none ∧
    trace extractorLogger none "q" 0 5 "f" none =
      trace extractorLogger (some []) "q" 0 5 "f" none ∧
    (trace extractorLogger none "q" 0 5 "f" (some ⟨"boom", []⟩)).panicked =
      true := by
  refine ⟨((claim_C3_nil_context offLogger).2.1 (by decide)
    "q" 0 5 "f" none).1, ?_, ?_⟩
  · exact ((claim_C3_nil_context extractorLogger).2.2.1 "q" 0 5 "f" none
      (Or.inr ⟨by decide, by decide, by decide⟩)).1
  · exact ((claim_C3_nil_context extractorLogger).2.2.2 "q" 0 5 "f"
      (some ⟨"boom", []⟩) (by decide) (by decide) (Or.inl (by decide))).1

/-- C4 (amended): in every Trace call the lazy provider runs at most once,
and it runs exactly when tracing is not suppressed and one of the three
category branches matches — even when the sink's disabled level then drops
the event; when no branch matches it never runs and nothing is emitted. -/
theorem claim_C4_provider_at_most_once (l : logger) (ctx : GoContext)
    (s : String) (r e : Int) (f : String) (err : Option GoError) :
    (trace l ctx s r e f err).fcCalls ≤ 1 ∧
    ((trace l ctx s r e f err).fcCalls =
      if l.ignoreTrace then 0
      else if errBranchHit l err then 1
      else if slowBranchHit l e then 1
      else if l.traceAll then 1
      else 0) ∧
    (l.ignoreTrace = false → errBranchHit l err = false →
      slowBranchHit l e = false → l.traceAll = false →
      (trace l ctx s r e f err).fcCalls = 0 ∧
      (trace l ctx s r e f err).emitted = []) := by
  refine ⟨?_, trace_fcCalls l ctx s r e f err, ?_⟩
  · rw [trace_fcCalls]
    split_ifs <;> simp
  · intro h1 h2 h3 h4
    constructor
    · rw [trace_fcCalls]
      simp [h1, h2, h3, h4]
    · by_contra hne
      obtain ⟨t, hc, _⟩ := trace_emitted_enabled l ctx s r e f err hne
      rw [trace_category] at hc
      simp [h1, h2, h3, h4] at hc

/-- Witness for the amended C4 theorem at a concrete no-match call. -/
theorem claim_C4_provider_at_most_once_witness :
    (trace offLogger (some []) "q" 0 5 "f" none).fcCalls = 0 ∧
    (trace offLogger (some []) "q" 0 5 "f" none).emitted = [] := by
  exact (claim_C4_provider_at_most_once offLogger (some []) "q" 0 5 "f"
    none).2.2 (by decide) (by decide) (by decide) (by decide)

/-- C5: per trace call exactly one category (or none) is selected, in the
fixed priority order Error > SlowQuery > Default/TraceAll (with global
suppression overriding all); at most one record is emitted; no selected
category means nothing is emitted; and every emitted record sits at the
selected category's configured level (so when an unfiltered error is present
only the error event can be emitted, never a second or the default one). -/
theorem claim_C5_category_priority (l : logger) (ctx : GoContext) (s : String)
    (r e : Int) (f : String) (err : Option GoError) :
    ((trace l ctx s r e f err).category =
      if l.ignoreTrace then none
      else if errBranchHit l err then some ErrorLogType
      else if slowBranchHit l e then some SlowQueryLogType
      else if l.traceAll then some DefaultLogType
      else none) ∧
    (trace l ctx s r e f err).emitted.length ≤ 1 ∧
    ((trace l ctx s r e f err).category = none →
      (trace l ctx s r e f err).emitted = []) ∧
    (∀ t, (trace l ctx s r e f err).category = some t →
      ∀ rec ∈ (trace l ctx s r e f err).emitted,
        rec.level = lookupLevel l.logLevel t) := by
  refine ⟨trace_category l ctx s r e f err,
    trace_emitted_length l ctx s r e f err, ?_, ?_⟩
  · intro hc
    by_contra hne
    obtain ⟨t, hct, _⟩ := trace_emitted_enabled l ctx s r e f err hne
    rw [hc] at hct
    cases hct
  · intro t hc
    exact trace_emitted_level l ctx s r e f err t hc

/-- Witness for C5 at a call where both the error condition and trace-all
hold: the error category wins. -/
theorem claim_C5_category_priority_witness :
    (trace onTraceAll (some []) "q" 0 5 "f" (some ⟨"boom", []⟩)).category =
      some ErrorLogType ∧
    ∀ rec ∈ (trace onTraceAll (some []) "q" 0 5 "f" (some ⟨"boom", []⟩)).emitted,
      rec.level = lookupLevel onTraceAll.logLevel ErrorLogType := by
  have h := claim_C5_category_priority onTraceAll (some []) "q" 0 5 "f"
    (some ⟨"boom", []⟩)
  have hc : (trace onTraceAll (some []) "q" 0 5 "f"
      (some ⟨"boom", []⟩)).category = some ErrorLogType := by
    rw [h.1]
    decide
  exact ⟨hc, h.2.2.2 ErrorLogType hc⟩

/-- C6 (amended): for every Trace call whose error is the record-not-found
sentinel: with the ignore flag true (its default) the error branch never
fires — for every ambient context — and if additionally neither the
slow-query branch nor trace-all matches, the call is a no-op (no provider
call, no fault, no event); with the flag false and suppression off the error
branch fires for every ambient context, and over a non-nil context an
error-category event is emitted whenever the sink enables the configured
Error level, while over a nil context with registered extractors the branch
faults while collecting context attributes and emits nothing. -/
theorem claim_C6_sentinel_filter (l : logger) (ctx : GoContext) (m : CtxMap)
    (s : String) (r e : Int) (f : String) :
    (l.ignoreRecordNotFoundError = true →
      (trace l ctx s r e f (some gormErrRecordNotFound)).category ≠
        some ErrorLogType ∧
      (slowBranchHit l e = false → l.traceAll = false →
        trace l ctx s r e f (some gormErrRecordNotFound) =
          ⟨0, false, none, []⟩)) ∧
    (l.ignoreRecordNotFoundError = false → l.ignoreTrace = false →
      (trace l ctx s r e f (some gormErrRecordNotFound)).category =
        some ErrorLogType ∧
      (l.sloggerHandler.enabled (lookupLevel l.logLevel ErrorLogType) = true →
        (trace l (some m) s r e f
          (some gormErrRecordNotFound)).emitted.length = 1 ∧
        ∀ rec ∈ (trace l (some m) s r e f
            (some gormErrRecordNotFound)).emitted,
          rec.level = lookupLevel l.logLevel ErrorLogType) ∧
      (l.contextKeys ≠ [] →
        (trace l none s r e f (some gormErrRecordNotFound)).panicked = true ∧
        (trace l none s r e f (some gormErrRecordNotFound)).emitted = [])) := by
  have hEI : errorsIs gormErrRecordNotFound recordNotFoundId = true := by
    decide
  constructor
  · intro hflag
    have hb : errBranchHit l (some gormErrRecordNotFound) = false := by
      simp [errBranchHit, hEI, hflag]
    constructor
    · rw [trace_category, hb]
      split_ifs <;> first | decide | simp_all
    · intro hs ht
      exact trace_no_match l ctx s r e f (some gormErrRecordNotFound)
        (Or.inr ⟨hb, hs, ht⟩)
  · intro hflag hit
    have hberr : errBranchHit l (some gormErrRecordNotFound) = true := by
      simp [errBranchHit, hEI, hflag]
    refine ⟨?_, ?_, ?_⟩
    · rw [trace_category, hberr]
      simp [hit]
    · intro hen
      have htr : trace l (some m) s r e f (some gormErrRecordNotFound) =
          traceBranch l (some m) ErrorLogType
            (errorAttrs l gormErrRecordNotFound s r e f)
            gormErrRecordNotFound.msg := by
        simp only [trace]
        simp [hit, hEI, hflag]
      rw [htr, traceBranch_some]
      simp [log_eq, hen]
    · intro hkeys
      exact trace_none_panics l s r e f (some gormErrRecordNotFound) hkeys
        hit (Or.inl hberr)

/-- Witness for the amended C6 theorem: with the filter disabled the error
branch fires and emits over an enabling sink; with the default configuration
the sentinel call is a no-op. -/
theorem claim_C6_sentinel_filter_witness :
    (trace noIgnoreRNF (some []) "q" 0 5 "f"
      (some gormErrRecordNotFound)).category = some ErrorLogType ∧
    (trace noIgnoreRNF (some []) "q" 0 5 "f"
      (some gormErrRecordNotFound)).emitted.length = 1 ∧
    trace (New onHandler) (some []) "q" 0 5 "f"
      (some gormErrRecordNotFound) = ⟨0, false, none, []⟩ := by
  refine ⟨((claim_C6_sentinel_filter noIgnoreRNF (some []) [] "q" 0 5 "f").2
    (by decide) (by decide)).1, ?_, ?_⟩
  · exact (((claim_C6_sentinel_filter noIgnoreRNF (some []) [] "q" 0 5 "f").2
      (by decide) (by decide)).2.1 (by decide)).1
  · exact ((claim_C6_sentinel_filter (New onHandler) (some []) [] "q" 0 5
      "f").1 (by decide)).2 (by decide) (by decide)

/-- C8: with global trace suppression enabled, every Trace call returns
immediately: the lazy provider is never invoked, nothing panics, no category
is selected and no event is emitted, for every context, error, elapsed time
and threshold. -/
theorem claim_C8_ignore_trace_silent (l : logger) (ctx : GoContext)
    (s : String) (r e : Int) (f : String) (err : Option GoError)
    (h : l.ignoreTrace = true) :
    trace l ctx s r e f err = ⟨0, false, none, []⟩ := by
  simp only [trace]
  simp [h]

/-- Witness for C8 at a concrete suppressed call. -/
theorem claim_C8_ignore_trace_silent_witness :
    trace suppressedLogger (some []) "q" 0 5 "f" (some ⟨"boom", []⟩) =
      ⟨0, false, none, []⟩ :=
  claim_C8_ignore_trace_silent suppressedLogger (some []) "q" 0 5 "f"
    (some ⟨"boom", []⟩) (by decide)

/-- C9: for every registered direct-key extractor `(name, key)` (extractor
names are unique, as they are Go map keys) and every record handed to the
sink, on the free-form path or on the trace path over a non-nil context: if
the context carries a value under `key`, the record carries the attribute
`(name, value)` with exactly that value; if the key is absent, the record
carries no attribute named `name`; and no trace call over a non-nil context
faults. -/
theorem claim_C9_direct_key_extractors (l : logger) (m : CtxMap)
    (name key : String) (hmem : (name, key) ∈ l.contextKeys)
    (hnodup : (l.contextKeys.map Prod.fst).Nodup) :
    (∀ (level : Level) (format : String) (args : List Attr) (rec : Record),
      log l (some m) level format args = some rec →
        (∀ v, m.lookup key = some v →
          Attr.mk name (AttrValue.ctxVal v) ∈ rec.attrs) ∧
        (m.lookup key = none → ∀ a ∈ rec.attrs, a.key ≠ name)) ∧
    (∀ (s : String) (r e : Int) (f : String) (err : Option GoError)
        (rec : Record), rec ∈ (trace l (some m) s r e f err).emitted →
        (∀ v, m.lookup key = some v →
          Attr.mk name (AttrValue.ctxVal v) ∈ rec.attrs) ∧
        (m.lookup key = none → ∀ a ∈ rec.attrs, a.key ≠ name)) ∧
    (∀ (s : String) (r e : Int) (f : String) (err : Option GoError),
      (trace l (some m) s r e f err).panicked = false) := by
  have hattrs : ∀ rec : Record, rec.attrs = ctxAttrsOf l m →
      (∀ v, m.lookup key = some v →
        Attr.mk name (AttrValue.ctxVal v) ∈ rec.attrs) ∧
      (m.lookup key = none → ∀ a ∈ rec.attrs, a.key ≠ name) := by
    intro rec hr
    constructor
    · intro v hv
      rw [hr]
      exact ctxLoopPure_mem_of_lookup m name key v l.contextKeys hmem hv
    · intro hv a ha
      rw [hr] at ha
      exact ctxLoopPure_no_name m name key l.contextKeys hnodup hmem hv a ha
  refine ⟨?_, ?_, ?_⟩
  · intro level format args rec hlog
    apply hattrs
    rw [log_eq] at hlog
    by_cases hen : l.sloggerHandler.enabled level = true
    · rw [if_pos hen] at hlog
      obtain rfl := (Option.some.inj hlog).symm
      rfl
    · rw [if_neg hen] at hlog
      cases hlog
  · intro s r e f err rec hrec
    exact hattrs rec (trace_emitted_attrs l m s r e f err rec hrec)
  · intro s r e f err
    exact trace_panicked_some l m s r e f err

/-- Witness for C9 at a concrete extractor whose key is present. -/
theorem claim_C9_direct_key_extractors_witness :
    log extractorLogger (some ctxWithKey) LevelInfo "hi" [] =
      some extractorRecord ∧
    Attr.mk "attrKey" (AttrValue.ctxVal "ctxVal") ∈ extractorRecord.attrs := by
  have h := claim_C9_direct_key_extractors extractorLogger ctxWithKey
    "attrKey" "ctxKey" (by decide) (by decide)
  refine ⟨by decide, ?_⟩
  exact (h.1 LevelInfo "hi" [] extractorRecord (by decide)).1 "ctxVal"
    (by decide)

/-- C10 (amended): the record-not-found filter matches by error-chain
membership, not exact equality: with the ignore flag true, a Trace call whose
error wraps the sentinel has exactly the same outcome as the bare sentinel
value; in particular the error branch never fires, and when neither the
slow-query nor the trace-all branch matches, no event is emitted and the
provider never runs. -/
theorem claim_C10_wrapped_sentinel_filtered (l : logger) (ctx : GoContext)
    (s : String) (r e : Int) (f : String) (w : GoError)
    (hw : errorsIs w recordNotFoundId = true)
    (hflag : l.ignoreRecordNotFoundError = true) :
    trace l ctx s r e f (some w) =
      trace l ctx s r e f (some gormErrRecordNotFound) ∧
    (trace l ctx s r e f (some w)).category ≠ some ErrorLogType ∧
    (slowBranchHit l e = false → l.traceAll = false →
      (trace l ctx s r e f (some w)).fcCalls = 0 ∧
      (trace l ctx s r e f (some w)).emitted = []) := by
  have hEI : errorsIs gormErrRecordNotFound recordNotFoundId = true := by
    decide
  have hb : errBranchHit l (some w) = false := by
    simp [errBranchHit, hw, hflag]
  refine ⟨?_, ?_, ?_⟩
  · simp only [trace]
    simp [hw, hEI, hflag]
  · rw [trace_category, hb]
    split_ifs <;> first | decide | simp_all
  · intro hs ht
    constructor
    · rw [trace_fcCalls]
      simp [hb, hs, ht]
    · by_contra hne
      obtain ⟨t, hc, _⟩ := trace_emitted_enabled l ctx s r e f (some w) hne
      rw [trace_category] at hc
      simp [hb, hs, ht] at hc

/-- Witness for the amended C10 theorem at a concrete wrapped error over the
default configuration. -/
theorem claim_C10_wrapped_sentinel_filtered_witness :
    trace (New onHandler) (some []) "q" 0 5 "f" (some wrappedRNF) =
      trace (New onHandler) (some []) "q" 0 5 "f"
        (some gormErrRecordNotFound) ∧
    (trace (New onHandler) (some []) "q" 0 5 "f" (some wrappedRNF)).emitted =
      [] := by
  have h := claim_C10_wrapped_sentinel_filtered (New onHandler) (some []) "q"
    0 5 "f" wrappedRNF (by decide) (by decide)
  exact ⟨h.1, (h.2.2 (by decide) (by decide)).2⟩

end SlogGorm
